import Mathlib

/-!
Shallow embedding of `binding-helpers/src/gen.rs` (layout-test generator for
the ctru-rs bindings) together with the small fragment of the `regex` crate
that the generator relies on.

Modelling conventions:
* `HashMap<String, HashSet<String>>` and `HashSet<String>` have unspecified
  iteration order in Rust; we model them as insertion-ordered association
  lists / lists without duplicates, which realises one admissible iteration
  order.  The source imposes no ordering of its own, so any order dependence
  visible in the model is order dependence of the source.
* `Regex::new` / `Regex::is_match` from the `regex` crate are modelled for
  the fragment the repository uses: literal identifier characters, `.`
  (any character) and postfix `*`; every other construct is treated as an
  unsupported/invalid pattern.  `is_match` is unanchored: it succeeds iff
  the pattern matches some contiguous substring of the haystack.
* The `unwrap()` panic on an invalid pattern in `blocklist_type` is modelled
  as the fatal error `GenError.invalidPattern`.
* File I/O in `generate_layout_tests` is modelled by returning the text that
  would be written; the exact token text produced by `quote!` is abbreviated
  where no claim depends on it (the preamble and the `cpp!` call syntax).
-/

deriving instance DecidableEq for Except

namespace CtruGen

/-- Regexes of the fragment of the `regex` crate used by this repository:
literal characters, the any-character class `.`, concatenation, alternation
and Kleene star. -/
inductive Regex where
  | emptyR : Regex
  | eps : Regex
  | char (c : Char) : Regex
  | anyChar : Regex
  | cat (r s : Regex) : Regex
  | alt (r s : Regex) : Regex
  | star (r : Regex) : Regex
deriving DecidableEq

/-- Does the regex accept the empty string? -/
def nullable : Regex → Bool
  | .emptyR => false
  | .eps => true
  | .char _ => false
  | .anyChar => false
  | .cat r s => nullable r && nullable s
  | .alt r s => nullable r || nullable s
  | .star _ => true

/-- Concatenation that simplifies away a left unit / left zero, used by the
derivative so that derivative chains of literal regexes stay in literal
form. -/
def seq : Regex → Regex → Regex
  | .eps, r => r
  | .emptyR, _ => .emptyR
  | r, s => .cat r s

/-- Brzozowski derivative of a regex by one character. -/
def deriv : Regex → Char → Regex
  | .emptyR, _ => .emptyR
  | .eps, _ => .emptyR
  | .char c, a => if a = c then .eps else .emptyR
  | .anyChar, _ => .eps
  | .cat r s, a => if nullable r then .alt (seq (deriv r a) s) (deriv s a) else seq (deriv r a) s
  | .alt r s, a => .alt (deriv r a) (deriv s a)
  | .star r, a => seq (deriv r a) (.star r)

/-- Does the regex match exactly the given character list? -/
def matchesFrom (r : Regex) (cs : List Char) : Bool :=
  nullable (cs.foldl deriv r)

/-- `Regex::is_match` of the `regex` crate: unanchored search, true iff the
pattern matches some contiguous substring of the haystack. -/
def is_match (r : Regex) (s : String) : Bool :=
  (List.range (s.data.length + 1)).any fun i =>
    (List.range (s.data.length + 1)).any fun n =>
      matchesFrom r ((s.data.drop i).take n)

/-- Characters that the modelled pattern syntax treats as literals: exactly
the characters that can occur in a C/Rust identifier. -/
def isLitChar (c : Char) : Bool :=
  c.isAlphanum || c = '_'

/-- The literal regex matching exactly the given character list. -/
def litRegex : List Char → Regex
  | [] => .eps
  | c :: cs => .cat (.char c) (litRegex cs)

/-- Left-to-right pattern scanner: `acc` holds the factors parsed so far in
reverse order; postfix `*` wraps the most recent factor.  Any character
outside the modelled fragment makes the pattern invalid. -/
def parseLoop : List Regex → List Char → Option (List Regex)
  | acc, [] => some acc
  | acc, c :: cs =>
    if isLitChar c then parseLoop (.char c :: acc) cs
    else if c = '.' then parseLoop (.anyChar :: acc) cs
    else if c = '*' then
      match acc with
      | [] => none
      | a :: as => parseLoop (.star a :: as) cs
    else none

/-- `Regex::new` for the modelled fragment: `none` is a syntactically invalid
pattern (in the source, `Regex::new(pattern)` returning `Err`). -/
def parse (s : String) : Option Regex :=
  (parseLoop [] s.data).map fun acc => acc.reverse.foldr Regex.cat Regex.eps

/-- The registry accumulated by `LayoutTestGenerator` in `gen.rs`:
`fields: RefCell<HashMap<String, HashSet<String>>>`,
`blocklist: RefCell<Vec<Regex>>`, `headers: RefCell<HashSet<String>>`. -/
structure LayoutTestGenerator where
  fields : List (String × List String)
  blocklist : List Regex
  headers : List String
deriving DecidableEq

/-- `LayoutTestGenerator::new()`. -/
def emptyGen : LayoutTestGenerator := ⟨[], [], []⟩

/-- `HashMap::get` on the association-list model. -/
def mapGet : List (String × List String) → String → Option (List String)
  | [], _ => none
  | (k2, v) :: rest, k => if k2 = k then some v else mapGet rest k

/-- `HashMap::insert`: replaces the value of an existing key in place,
otherwise appends a new entry. -/
def mapInsert : List (String × List String) → String → List String → List (String × List String)
  | [], k, v => [(k, v)]
  | (k2, v2) :: rest, k, v =>
    if k2 = k then (k2, v) :: rest else (k2, v2) :: mapInsert rest k v

/-- `HashSet::insert`: adds the element only if it is not yet present. -/
def setInsert (s : List String) (x : String) : List String :=
  if x ∈ s then s else s ++ [x]

/-- `fields.entry(k).or_default().insert(f)`: inserts `f` into the field set
of `k`, creating an empty entry for `k` first when it is missing. -/
def entryInsert : List (String × List String) → String → String → List (String × List String)
  | [], k, f => [(k, [f])]
  | (k2, v) :: rest, k, f =>
    if k2 = k then (k2, setInsert v f) :: rest else (k2, v) :: entryInsert rest k f

/-- The error raised by the generator; `invalidPattern` models the fatal
`unwrap()` panic in `blocklist_type` when `Regex::new` rejects the pattern
(the spec's `InvalidPattern` error kind). -/
inductive GenError where
  | invalidPattern : GenError
deriving DecidableEq

/-- `bindgen::callbacks::TypeKind`. -/
inductive TypeKind where
  | struct : TypeKind
  | enum : TypeKind
  | union : TypeKind
deriving DecidableEq

/-- `bindgen::callbacks::ImplementsTrait` (values irrelevant here: the
callback always answers `None`). -/
inductive ImplementsTrait where
  | yes : ImplementsTrait
  | no : ImplementsTrait
deriving DecidableEq

/-- `bindgen::FieldVisibilityKind` (values irrelevant here: the callback
always answers `None`). -/
inductive FieldVisibilityKind where
  | publicVis : FieldVisibilityKind
  | privateVis : FieldVisibilityKind
deriving DecidableEq

/-- `LayoutTestGenerator::blocklist_type`: compiles the pattern and appends
it to the blocklist; an invalid pattern is fatal (`unwrap()` panic). -/
def blocklist_type (g : LayoutTestGenerator) (pattern : String) :
    Except GenError LayoutTestGenerator :=
  match parse pattern with
  | none => .error .invalidPattern
  | some r => .ok { g with blocklist := g.blocklist ++ [r] }

/-- `ParseCallbacks::header_file`: inserts the filename into the header set. -/
def header_file (g : LayoutTestGenerator) (filename : String) : LayoutTestGenerator :=
  { g with headers := setInsert g.headers filename }

/-- `ParseCallbacks::add_derives`: for a struct or enum, `fields.insert(name,
HashSet::new())`; for a union, blocklist the name (the `cargo:warning`
println is a diagnostic side effect not modelled).  Always returns the empty
derive list. -/
def add_derives (g : LayoutTestGenerator) (name : String) (kind : TypeKind) :
    Except GenError (LayoutTestGenerator × List String) :=
  match kind with
  | .struct | .enum => .ok ({ g with fields := mapInsert g.fields name [] }, [])
  | .union =>
    match blocklist_type g name with
    | .error e => .error e
    | .ok g2 => .ok (g2, [])

/-- `ParseCallbacks::blocklisted_type_implements_trait`: blocklists the name
and answers `None`. -/
def blocklisted_type_implements_trait (g : LayoutTestGenerator) (name : String) :
    Except GenError (LayoutTestGenerator × Option ImplementsTrait) :=
  match blocklist_type g name with
  | .error e => .error e
  | .ok g2 => .ok (g2, none)

/-- `ParseCallbacks::field_visibility`: inserts the field into the type's
entry (creating it when missing) and answers `None`. -/
def field_visibility (g : LayoutTestGenerator) (typeName fieldName : String) :
    LayoutTestGenerator × Option FieldVisibilityKind :=
  ({ g with fields := entryInsert g.fields typeName fieldName }, none)

/-- One layout assertion generated by `build_assert_eq`, tagged by which
measurement pair it compares. -/
inductive Assertion where
  | sizeOfType (name : String) : Assertion
  | alignOfType (name : String) : Assertion
  | sizeOfField (ty f : String) : Assertion
  | alignOfField (ty f : String) : Assertion
  | offsetOfField (ty f : String) : Assertion
deriving DecidableEq

/-- One generated `#[test]` function (`layout_test_<structName>`): the
verification unit for one type. -/
structure TestUnit where
  structName : String
  assertions : List Assertion
deriving DecidableEq

/-- The three per-field assertions of `build_struct_test`, emitted in field
iteration order. -/
def fieldAssertions (ty : String) : List String → List Assertion
  | [] => []
  | f :: fs =>
    .sizeOfField ty f :: .alignOfField ty f :: .offsetOfField ty f :: fieldAssertions ty fs

/-- `LayoutTestGenerator::build_struct_test`: two whole-type assertions, then
three assertions per recorded field; a missing field entry contributes
nothing (`get(..).into_iter().flatten()`). -/
def build_struct_test (g : LayoutTestGenerator) (structName : String) : TestUnit :=
  { structName := structName
    assertions :=
      [.sizeOfType structName, .alignOfType structName] ++
        (match mapGet g.fields structName with
         | none => []
         | some fs => fieldAssertions structName fs) }

/-- Does some blocklist pattern match the name (the inner `for pattern in
blocklist` loop of `build_tests`)? -/
def is_blocklisted (g : LayoutTestGenerator) (name : String) : Bool :=
  g.blocklist.any fun r => is_match r name

/-- The type names that survive the blocklist filter, in registry key
order. -/
def retainedNames (g : LayoutTestGenerator) : List String :=
  (g.fields.map Prod.fst).filter fun n => !is_blocklisted g n

/-- `LayoutTestGenerator::build_tests` without the constant preamble: one
verification unit per retained type, in registry key order. -/
def build_tests (g : LayoutTestGenerator) : List TestUnit :=
  (retainedNames g).map (build_struct_test g)

/-- Abbreviated text of `build_preamble()` (a constant token stream; its
exact wording is irrelevant to every claim). -/
def preambleText : String :=
  "use cpp::cpp; <size_of, align_of, size_of_ret, align_of_ret layout query preamble> "

/-- Text of one generated assertion (the `cpp!` invocation syntax is
abbreviated to `cpp_eval(..)`; the shape `assert_eq!(<rust lhs>, <cpp rhs>)`
follows `build_assert_eq`). -/
def renderAssertion : Assertion → String
  | .sizeOfType n => "assert_eq!(size_of!(" ++ n ++ "), cpp_eval(sizeof(" ++ n ++ "))); "
  | .alignOfType n => "assert_eq!(align_of!(" ++ n ++ "), cpp_eval(alignof(" ++ n ++ "))); "
  | .sizeOfField t f =>
    "assert_eq!(size_of!(" ++ t ++ "::" ++ f ++ "), cpp_eval(sizeof(" ++ t ++ "::" ++ f ++ "))); "
  | .alignOfField t f =>
    "assert_eq!(align_of!(" ++ t ++ "::" ++ f ++ "), cpp_eval(alignof(" ++ t ++ "::" ++ f ++ "))); "
  | .offsetOfField t f =>
    "assert_eq!(offset_of!(" ++ t ++ ", " ++ f ++ "), cpp_eval(offsetof(" ++ t ++ ", " ++ f ++ "))); "

/-- Text of one generated `#[test]` function. -/
def renderUnit (u : TestUnit) : String :=
  "#[test] fn layout_test_" ++ u.structName ++ "() \x7b " ++
    String.join (u.assertions.map renderAssertion) ++ "\x7d\n"

/-- `LayoutTestGenerator::generate_layout_tests`, modelled as the text
written to the output file: the `cpp!` header-include block, then the
preamble, then the verification units. -/
def generate_layout_tests (g : LayoutTestGenerator) : String :=
  "cpp! \x7b\x7b\n" ++
    String.join (g.headers.map fun h => "    #include \"" ++ h ++ "\"\n") ++
    "\x7d\x7d\n\n" ++ preambleText ++
    String.join ((build_tests g).map renderUnit)

/-- One declaration event delivered by the parser (or, for `addExclusion`,
one direct `blocklist_type` configuration call). -/
inductive Event where
  | headerSeen (path : String) : Event
  | typeSeen (name : String) (kind : TypeKind) : Event
  | fieldSeen (tyName fieldName : String) : Event
  | exclusionQuery (name : String) : Event
  | addExclusion (pattern : String) : Event
deriving DecidableEq

/-- Effect of one event on the registry. -/
def step (g : LayoutTestGenerator) : Event → Except GenError LayoutTestGenerator
  | .headerSeen p => .ok (header_file g p)
  | .typeSeen n k =>
    match add_derives g n k with
    | .error e => .error e
    | .ok (g2, _) => .ok g2
  | .fieldSeen t f => .ok (field_visibility g t f).1
  | .exclusionQuery n =>
    match blocklisted_type_implements_trait g n with
    | .error e => .error e
    | .ok (g2, _) => .ok g2
  | .addExclusion p => blocklist_type g p

/-- Run a sequence of events; the first fatal error aborts the pass. -/
def runEvents (g : LayoutTestGenerator) : List Event → Except GenError LayoutTestGenerator
  | [] => .ok g
  | e :: es =>
    match step g e with
    | .error err => .error err
    | .ok g2 => runEvents g2 es

/-- The whole pipeline: drive the listener over the events, then generate;
a fatal error during the parse pass means no output text is ever produced. -/
def genText (es : List Event) : Except GenError String :=
  match runEvents emptyGen es with
  | .error e => .error e
  | .ok g => .ok (generate_layout_tests g)

/-! ### Lemmas about the association-list and set operations -/

theorem mapGet_mapInsert_self (m : List (String × List String)) (k : String) (v : List String) :
    mapGet (mapInsert m k v) k = some v := by
  induction m with
  | nil => simp [mapInsert, mapGet]
  | cons p rest ih =>
    obtain ⟨k2, v2⟩ := p
    by_cases h : k2 = k
    · simp [mapInsert, mapGet, h]
    · simp [mapInsert, mapGet, h, ih]

theorem mapGet_mapInsert_other (m : List (String × List String)) (k k2 : String) (v : List String)
    (h : k2 ≠ k) : mapGet (mapInsert m k v) k2 = mapGet m k2 := by
  have hk : ¬ k = k2 := fun hh => h hh.symm
  induction m with
  | nil => simp [mapInsert, mapGet, hk]
  | cons p rest ih =>
    obtain ⟨k3, v3⟩ := p
    by_cases h3 : k3 = k
    · subst h3
      simp [mapInsert, mapGet, hk]
    · simp [mapInsert, mapGet, h3, ih]

theorem setInsert_of_mem (s : List String) (x : String) (h : x ∈ s) : setInsert s x = s := by
  simp [setInsert, h]

theorem entryInsert_of_mem (m : List (String × List String)) (k f : String) (s : List String)
    (hget : mapGet m k = some s) (hf : f ∈ s) : entryInsert m k f = m := by
  induction m with
  | nil => simp [mapGet] at hget
  | cons p rest ih =>
    obtain ⟨k2, v⟩ := p
    by_cases h2 : k2 = k
    · subst h2
      simp [mapGet] at hget
      subst hget
      simp [entryInsert, setInsert_of_mem v f hf]
    · simp [mapGet, h2] at hget
      simp [entryInsert, h2, ih hget]

theorem mapGet_entryInsert_absent (m : List (String × List String)) (k f : String)
    (h : mapGet m k = none) : mapGet (entryInsert m k f) k = some [f] := by
  induction m with
  | nil => simp [entryInsert, mapGet]
  | cons p rest ih =>
    obtain ⟨k2, v⟩ := p
    by_cases h2 : k2 = k
    · simp [mapGet, h2] at h
    · simp [mapGet, h2] at h
      simp [entryInsert, mapGet, h2, ih h]

/-! ### Lemmas about the modelled regex engine -/

theorem parseLoop_lit (l : List Char) (h : ∀ c ∈ l, isLitChar c) (acc : List Regex) :
    parseLoop acc l = some ((l.map Regex.char).reverse ++ acc) := by
  induction l generalizing acc with
  | nil => simp [parseLoop]
  | cons c cs ih =>
    have hc : isLitChar c := h c (by simp)
    have hcs : ∀ c2 ∈ cs, isLitChar c2 := fun c2 hm => h c2 (by simp [hm])
    simp [parseLoop, hc, ih hcs]

theorem litRegex_eq_foldr (l : List Char) :
    (l.map Regex.char).foldr Regex.cat Regex.eps = litRegex l := by
  induction l with
  | nil => rfl
  | cons c cs ih => simp [litRegex, ih]

theorem parse_lit (s : String) (h : ∀ c ∈ s.data, isLitChar c) :
    parse s = some (litRegex s.data) := by
  simp [parse, parseLoop_lit s.data h, litRegex_eq_foldr]

theorem matchesFrom_lit (l : List Char) : matchesFrom (litRegex l) l = true := by
  induction l with
  | nil => rfl
  | cons c cs ih =>
    simpa [matchesFrom, litRegex, deriv, nullable, seq] using ih

theorem is_match_of_infix (r : Regex) (s : String) (pre mid post : List Char)
    (hs : s.data = pre ++ (mid ++ post)) (hm : matchesFrom r mid = true) :
    is_match r s = true := by
  unfold is_match
  rw [List.any_eq_true]
  refine ⟨pre.length, ?_, ?_⟩
  · rw [List.mem_range, hs]
    simp
    omega
  · rw [List.any_eq_true]
    refine ⟨mid.length, ?_, ?_⟩
    · rw [List.mem_range, hs]
      simp
      omega
    · rw [hs, List.drop_left, List.take_left]
      exact hm

theorem is_match_lit_infix (u : List Char) (s : String) (pre post : List Char)
    (hs : s.data = pre ++ u ++ post) : is_match (litRegex u) s = true := by
  refine is_match_of_infix (litRegex u) s pre u post ?_ (matchesFrom_lit u)
  rw [hs, List.append_assoc]

theorem is_match_lit_self (u : String) : is_match (litRegex u.data) u = true := by
  refine is_match_lit_infix u.data u [] [] ?_
  simp

/-! ### Lemmas about blocklist evolution and retention -/

theorem mem_retainedNames (g : LayoutTestGenerator) (n : String) :
    n ∈ retainedNames g ↔ n ∈ g.fields.map Prod.fst ∧ is_blocklisted g n = false := by
  simp [retainedNames, List.mem_filter]

theorem not_retained_of_blocklisted (g : LayoutTestGenerator) (n : String)
    (h : is_blocklisted g n = true) : n ∉ retainedNames g := by
  simp [mem_retainedNames, h]

theorem is_blocklisted_of_mem (g : LayoutTestGenerator) (r : Regex) (n : String)
    (hr : r ∈ g.blocklist) (hm : is_match r n = true) : is_blocklisted g n = true := by
  rw [is_blocklisted, List.any_eq_true]
  exact ⟨r, hr, hm⟩

theorem step_blocklist_mono (g g2 : LayoutTestGenerator) (e : Event) (h : step g e = .ok g2) :
    ∀ r ∈ g.blocklist, r ∈ g2.blocklist := by
  intro r hr
  cases e with
  | headerSeen p =>
    simp [step] at h
    rw [← h, header_file]
    exact hr
  | typeSeen n k =>
    cases k with
    | struct =>
      simp [step, add_derives] at h
      rw [← h]
      exact hr
    | enum =>
      simp [step, add_derives] at h
      rw [← h]
      exact hr
    | union =>
      cases hp : parse n with
      | none => simp [step, add_derives, blocklist_type, hp] at h
      | some r2 =>
        simp [step, add_derives, blocklist_type, hp] at h
        rw [← h]
        simp [hr]
  | fieldSeen t f =>
    simp [step, field_visibility] at h
    rw [← h]
    exact hr
  | exclusionQuery n =>
    cases hp : parse n with
    | none => simp [step, blocklisted_type_implements_trait, blocklist_type, hp] at h
    | some r2 =>
      simp [step, blocklisted_type_implements_trait, blocklist_type, hp] at h
      rw [← h]
      simp [hr]
  | addExclusion p =>
    cases hp : parse p with
    | none => simp [step, blocklist_type, hp] at h
    | some r2 =>
      simp [step, blocklist_type, hp] at h
      rw [← h]
      simp [hr]

theorem runEvents_blocklist_mono (g g2 : LayoutTestGenerator) (es : List Event)
    (h : runEvents g es = .ok g2) : ∀ r ∈ g.blocklist, r ∈ g2.blocklist := by
  induction es generalizing g with
  | nil =>
    simp [runEvents] at h
    rw [← h]
    exact fun r hr => hr
  | cons e es ih =>
    rw [runEvents] at h
    cases hstep : step g e with
    | error err => rw [hstep] at h; exact absurd h (by simp)
    | ok gm =>
      rw [hstep] at h
      intro r hr
      exact ih gm h r (step_blocklist_mono g gm e hstep r hr)

theorem step_union_adds (g g2 : LayoutTestGenerator) (u : String) (r : Regex)
    (hp : parse u = some r) (h : step g (.typeSeen u .union) = .ok g2) : r ∈ g2.blocklist := by
  simp [step, add_derives, blocklist_type, hp] at h
  rw [← h]
  simp

theorem runEvents_append (g : LayoutTestGenerator) (l1 l2 : List Event) :
    runEvents g (l1 ++ l2) =
      match runEvents g l1 with
      | .error e => .error e
      | .ok g1 => runEvents g1 l2 := by
  induction l1 generalizing g with
  | nil => simp [runEvents]
  | cons e es ih =>
    rw [List.cons_append, runEvents, runEvents]
    cases step g e with
    | error err => rfl
    | ok g2 => exact ih g2

/-! ### Claim theorems -/

/-- C1 (counterexample): generation output is not independent of the
incidental insertion order of types.  Two parse passes that record the same
two struct types in opposite orders produce registries with permuted (but
content-equal) field maps and equal blocklists and header sets, yet the
generated output texts differ byte-wise, because `build_tests` iterates the
field map in container order without sorting. -/
theorem c1_order_counterexample :
    runEvents emptyGen [.typeSeen "A" .struct, .typeSeen "B" .struct] =
        .ok ⟨[("A", []), ("B", [])], [], []⟩ ∧
    runEvents emptyGen [.typeSeen "B" .struct, .typeSeen "A" .struct] =
        .ok ⟨[("B", []), ("A", [])], [], []⟩ ∧
    List.Perm [("A", ([] : List String)), ("B", [])] [("B", []), ("A", [])] ∧
    generate_layout_tests ⟨[("A", []), ("B", [])], [], []⟩ ≠
      generate_layout_tests ⟨[("B", []), ("A", [])], [], []⟩ :=
  ⟨by decide, by decide, by decide, by decide⟩

/-- C1 (amended): generation is a deterministic pure function of the frozen
registry state — two runs of `generate_layout_tests` over registries whose
fields, blocklist and headers are identical (including container order)
produce byte-identical output text; the output may however depend on the
incidental insertion order of types, fields and headers. -/
theorem c1_deterministic (g1 g2 : LayoutTestGenerator)
    (hf : g1.fields = g2.fields) (hb : g1.blocklist = g2.blocklist)
    (hh : g1.headers = g2.headers) :
    generate_layout_tests g1 = generate_layout_tests g2 := by
  obtain ⟨f1, b1, hd1⟩ := g1
  obtain ⟨f2, b2, hd2⟩ := g2
  cases hf
  cases hb
  cases hh
  rfl

/-- Witness for C1 (amended) at a concrete registry. -/
theorem c1_deterministic_witness :
    generate_layout_tests ⟨[("A", [])], [], ["3ds.h"]⟩ =
      generate_layout_tests ⟨[("A", [])], [], ["3ds.h"]⟩ :=
  c1_deterministic ⟨[("A", [])], [], ["3ds.h"]⟩ ⟨[("A", [])], [], ["3ds.h"]⟩ rfl rfl rfl

/-- C2 (counterexample): a struct-kind type-seen event for a name that
already has recorded fields does not leave the existing field set unchanged:
`add_derives` performs `fields.insert(name, HashSet::new())`, which replaces
the entry, clearing the previously recorded field `a`. -/
theorem c2_insert_clears_counterexample :
    add_derives ⟨[("Foo", ["a"])], [], []⟩ "Foo" .struct =
        .ok (⟨[("Foo", [])], [], []⟩, []) ∧
    mapGet [("Foo", ["a"])] "Foo" = some ["a"] ∧
    mapGet [("Foo", [])] "Foo" = some [] ∧
    (["a"] : List String) ≠ [] :=
  ⟨by decide, by decide, by decide, by decide⟩

/-- C2 (amended): for struct or enum kind, the type-seen event sets the
field-set entry for the name to the empty set — creating the entry if absent
and resetting it to empty (discarding previously recorded fields) if
present — while leaving every other entry, the blocklist and the header set
unchanged, and returning the empty derive list. -/
theorem c2_type_seen_resets_entry (g : LayoutTestGenerator) (name : String) (k : TypeKind)
    (hk : k = .struct ∨ k = .enum) :
    add_derives g name k = .ok ({ g with fields := mapInsert g.fields name [] }, []) ∧
    mapGet (mapInsert g.fields name []) name = some [] ∧
    (∀ n2, n2 ≠ name → mapGet (mapInsert g.fields name []) n2 = mapGet g.fields n2) := by
  refine ⟨?_, mapGet_mapInsert_self g.fields name [], ?_⟩
  · rcases hk with hk | hk <;> subst hk <;> rfl
  · exact fun n2 hn => mapGet_mapInsert_other g.fields name n2 [] hn

/-- Witness for C2 (amended): the `Foo ↦ \x7ba\x7d` entry is reset to empty. -/
theorem c2_type_seen_resets_entry_witness :
    add_derives ⟨[("Foo", ["a"])], [], []⟩ "Foo" .struct = .ok (⟨[("Foo", [])], [], []⟩, []) ∧
    mapGet (mapInsert [("Foo", ["a"])] "Foo" []) "Foo" = some [] := by
  have h := c2_type_seen_resets_entry ⟨[("Foo", ["a"])], [], []⟩ "Foo" .struct (Or.inl rfl)
  exact ⟨h.1, h.2.1⟩

/-- C3 (counterexample): registering a union name is not an exact-match
exclusion.  After the union event for `Foo`, the distinct type `FooBar`
(which has a recorded field entry) is also excluded from generation, because
`Regex::is_match` searches unanchored and `Foo` matches inside `FooBar`. -/
theorem c3_not_exact_match_counterexample :
    runEvents emptyGen [.typeSeen "Foo" .union, .fieldSeen "FooBar" "x"] =
        .ok ⟨[("FooBar", ["x"])], [litRegex "Foo".data], []⟩ ∧
    ("FooBar" : String) ≠ "Foo" ∧
    build_tests ⟨[("FooBar", ["x"])], [litRegex "Foo".data], []⟩ = [] :=
  ⟨by decide, by decide, by decide⟩

/-- C3 (amended): a union type-seen event registers the name as an
unanchored regex pattern: generation is suppressed for that name and for
every type whose name contains the union's name as a substring (for names
made of literal identifier characters). -/
theorem c3_union_registers_substring_pattern (g g2 : LayoutTestGenerator) (u : String)
    (hu : ∀ c ∈ u.data, isLitChar c)
    (hb : blocklist_type g u = .ok g2)
    (t : String) (pre post : List Char) (ht : t.data = pre ++ u.data ++ post) :
    is_blocklisted g2 t = true ∧ t ∉ retainedNames g2 := by
  have hp := parse_lit u hu
  simp only [blocklist_type, hp, Except.ok.injEq] at hb
  subst hb
  have hm : is_match (litRegex u.data) t = true := is_match_lit_infix u.data t pre post ht
  have hbl : is_blocklisted { g with blocklist := g.blocklist ++ [litRegex u.data] } t = true :=
    is_blocklisted_of_mem _ (litRegex u.data) t (by simp) hm
  exact ⟨hbl, not_retained_of_blocklisted _ t hbl⟩

/-- Witness for C3 (amended): blocklisting union `Foo` suppresses `FooBar`. -/
theorem c3_union_registers_substring_pattern_witness :
    is_blocklisted ⟨[], [litRegex "Foo".data], []⟩ "FooBar" = true ∧
    ("FooBar" : String) ∉ retainedNames ⟨[], [litRegex "Foo".data], []⟩ :=
  c3_union_registers_substring_pattern emptyGen ⟨[], [litRegex "Foo".data], []⟩ "Foo"
    (by decide) (by decide) "FooBar" [] ['B', 'a', 'r'] (by decide)

/-- C4: in every successful event sequence that reports some type name with
kind union, the generated output contains no verification unit for that
name, regardless of any field events referencing it before or after the
union event (type names are identifier strings: alphanumeric or
underscore characters). -/
theorem c4_union_never_emitted (es : List Event) (g : LayoutTestGenerator) (u : String)
    (hrun : runEvents emptyGen es = .ok g)
    (hmem : Event.typeSeen u .union ∈ es)
    (hu : ∀ c ∈ u.data, isLitChar c) :
    u ∉ retainedNames g ∧ ∀ t ∈ build_tests g, t.structName ≠ u := by
  obtain ⟨l1, l2, rfl⟩ := List.append_of_mem hmem
  rw [runEvents_append] at hrun
  cases h1 : runEvents emptyGen l1 with
  | error e => rw [h1] at hrun; exact absurd hrun (by simp)
  | ok g1 =>
    rw [h1] at hrun
    simp only [runEvents] at hrun
    cases h2 : step g1 (.typeSeen u .union) with
    | error e => rw [h2] at hrun; exact absurd hrun (by simp)
    | ok g2 =>
      rw [h2] at hrun
      have hp := parse_lit u hu
      have hr2 : litRegex u.data ∈ g2.blocklist := step_union_adds g1 g2 u _ hp h2
      have hrg : litRegex u.data ∈ g.blocklist := runEvents_blocklist_mono g2 g l2 hrun _ hr2
      have hbl : is_blocklisted g u = true :=
        is_blocklisted_of_mem g _ u hrg (is_match_lit_self u)
      have hnr := not_retained_of_blocklisted g u hbl
      refine ⟨hnr, ?_⟩
      intro t ht
      rw [build_tests, List.mem_map] at ht
      obtain ⟨n, hn, rfl⟩ := ht
      show n ≠ u
      intro heq
      exact hnr (heq ▸ hn)

/-- Witness for C4: Scenario B, the union `Blob` yields no unit. -/
theorem c4_union_never_emitted_witness :
    ("Blob" : String) ∉ retainedNames ⟨[], [litRegex "Blob".data], []⟩ :=
  (c4_union_never_emitted [.typeSeen "Blob" .union] ⟨[], [litRegex "Blob".data], []⟩ "Blob"
    (by decide) (by simp) (by decide)).1

/-- C5: exclusion is evaluated at generation time against the final pattern
list: a pattern added after fields were recorded for a matching type still
suppresses that type's verification unit, and in general a name is retained
iff it has a field-map entry and no registered pattern matches it when
`generate_layout_tests` runs. -/
theorem c5_exclusion_at_generation_time (g g2 : LayoutTestGenerator) (p n : String) (r : Regex)
    (hb : blocklist_type g p = .ok g2)
    (hn : n ∈ g.fields.map Prod.fst)
    (hp : parse p = some r) (hm : is_match r n = true) :
    n ∈ g2.fields.map Prod.fst ∧ n ∉ retainedNames g2 ∧
      ∀ m2, (m2 ∈ retainedNames g2 ↔
        m2 ∈ g2.fields.map Prod.fst ∧ is_blocklisted g2 m2 = false) := by
  simp only [blocklist_type, hp, Except.ok.injEq] at hb
  subst hb
  refine ⟨hn, ?_, fun m2 => mem_retainedNames _ m2⟩
  exact not_retained_of_blocklisted _ n (is_blocklisted_of_mem _ r n (by simp) hm)

/-- Witness for C5: Scenario C, adding `Fo.*` after recording `Foo.a`
suppresses the `Foo` unit. -/
theorem c5_exclusion_at_generation_time_witness :
    ("Foo" : String) ∉ retainedNames
      ⟨[("Foo", ["a"])], [.cat (.char 'F') (.cat (.char 'o') (.cat (.star .anyChar) .eps))], []⟩ :=
  (c5_exclusion_at_generation_time ⟨[("Foo", ["a"])], [], []⟩
    ⟨[("Foo", ["a"])], [.cat (.char 'F') (.cat (.char 'o') (.cat (.star .anyChar) .eps))], []⟩
    "Fo.*" "Foo" (.cat (.char 'F') (.cat (.char 'o') (.cat (.star .anyChar) .eps)))
    (by decide) (by decide) (by decide) (by decide)).2.1

/-- C6: Scenario A produces exactly one verification unit for `Point` with
the two whole-type assertions followed by three assertions for each of the
two fields; and any type whose recorded field set is empty still yields a
unit with exactly the two whole-type assertions and an empty per-field
section. -/
theorem c6_point_unit_and_empty_fields (g : LayoutTestGenerator) (name : String)
    (h : mapGet g.fields name = some []) :
    runEvents emptyGen
        [.typeSeen "Point" .struct, .fieldSeen "Point" "x", .fieldSeen "Point" "y"] =
      .ok ⟨[("Point", ["x", "y"])], [], []⟩ ∧
    build_tests ⟨[("Point", ["x", "y"])], [], []⟩ =
      [⟨"Point", [.sizeOfType "Point", .alignOfType "Point",
        .sizeOfField "Point" "x", .alignOfField "Point" "x", .offsetOfField "Point" "x",
        .sizeOfField "Point" "y", .alignOfField "Point" "y", .offsetOfField "Point" "y"]⟩] ∧
    (build_struct_test g name).assertions = [.sizeOfType name, .alignOfType name] := by
  refine ⟨by decide, by decide, ?_⟩
  simp [build_struct_test, h, fieldAssertions]

/-- Witness for C6 at a registry holding one field-less type. -/
theorem c6_point_unit_and_empty_fields_witness :
    (build_struct_test ⟨[("Opaque", [])], [], []⟩ "Opaque").assertions =
      [.sizeOfType "Opaque", .alignOfType "Opaque"] :=
  (c6_point_unit_and_empty_fields ⟨[("Opaque", [])], [], []⟩ "Opaque" (by decide)).2.2

/-- C7: field insertion is idempotent — a field event for a (type, field)
pair that is already recorded returns the registry unchanged (and answers
`None`). -/
theorem c7_field_insert_idempotent (g : LayoutTestGenerator) (t f : String) (s : List String)
    (hget : mapGet g.fields t = some s) (hf : f ∈ s) :
    field_visibility g t f = (g, none) := by
  rw [field_visibility, entryInsert_of_mem g.fields t f s hget hf]

/-- Witness for C7: re-inserting `Foo.a` changes nothing. -/
theorem c7_field_insert_idempotent_witness :
    field_visibility ⟨[("Foo", ["a"])], [], []⟩ "Foo" "a" = (⟨[("Foo", ["a"])], [], []⟩, none) :=
  c7_field_insert_idempotent ⟨[("Foo", ["a"])], [], []⟩ "Foo" "a" ["a"] (by decide) (by decide)

/-- C8: out-of-order events are tolerated — a field event for a type with no
existing registry entry creates a fresh entry containing exactly that field,
and the field callback is a total function (it never fails) that answers
`None`, whatever its order relative to type-seen events. -/
theorem c8_out_of_order_field_event (g : LayoutTestGenerator) (t f : String)
    (h : mapGet g.fields t = none) :
    mapGet ((field_visibility g t f).1).fields t = some [f] ∧
    (field_visibility g t f).2 = none :=
  ⟨mapGet_entryInsert_absent g.fields t f h, rfl⟩

/-- Witness for C8: a field event for the undeclared type `Foo` creates the
entry `Foo ↦ [x]`. -/
theorem c8_out_of_order_field_event_witness :
    mapGet ((field_visibility emptyGen "Foo" "x").1).fields "Foo" = some ["x"] :=
  (c8_out_of_order_field_event emptyGen "Foo" "x" (by decide)).1

/-- C9: a syntactically invalid exclusion pattern makes `blocklist_type`
fail fatally with `invalidPattern` (in the source, the `unwrap()` panic on
`Regex::new`), and when this happens during the pass no output text is ever
produced; a valid pattern succeeds and appends the compiled matcher to the
blocklist. -/
theorem c9_invalid_pattern_fatal (g : LayoutTestGenerator) (p : String) :
    (parse p = none → blocklist_type g p = .error .invalidPattern) ∧
    (∀ r, parse p = some r →
      blocklist_type g p = .ok { g with blocklist := g.blocklist ++ [r] }) ∧
    (∀ es1 es2 g1, parse p = none → runEvents emptyGen es1 = .ok g1 →
      genText (es1 ++ .addExclusion p :: es2) = .error .invalidPattern) := by
  refine ⟨?_, ?_, ?_⟩
  · intro hp
    simp [blocklist_type, hp]
  · intro r hp
    simp [blocklist_type, hp]
  · intro es1 es2 g1 hp h1
    have hend : runEvents emptyGen (es1 ++ .addExclusion p :: es2) = .error .invalidPattern := by
      simp [runEvents_append, h1, runEvents, step, blocklist_type, hp]
    simp [genText, hend]

/-- Witness for C9: the unbalanced pattern `(` is rejected fatally before
any output, while the valid `Fo.*` is appended. -/
theorem c9_invalid_pattern_fatal_witness :
    blocklist_type emptyGen "(" = .error .invalidPattern ∧
    blocklist_type emptyGen "Fo.*" = .ok { emptyGen with
      blocklist := emptyGen.blocklist ++
        [.cat (.char 'F') (.cat (.char 'o') (.cat (.star .anyChar) .eps))] } ∧
    genText [.addExclusion "("] = .error .invalidPattern := by
  refine ⟨(c9_invalid_pattern_fatal emptyGen "(").1 (by decide),
    (c9_invalid_pattern_fatal emptyGen "Fo.*").2.1 _ (by decide), ?_⟩
  exact (c9_invalid_pattern_fatal emptyGen "(").2.2 [] [] emptyGen (by decide) rfl

/-- C10: the listener is a pure observer toward the parser — every callback
answer is the neutral value: `add_derives` returns the empty derive list,
`field_visibility` answers `None`, and `blocklisted_type_implements_trait`
answers `None`; only the accumulated registry carries information. -/
theorem c10_pure_observer (g gd gb : LayoutTestGenerator) (name n t f : String)
    (k : TypeKind) (ds : List String) (a : Option ImplementsTrait)
    (h1 : add_derives g name k = .ok (gd, ds))
    (h2 : blocklisted_type_implements_trait g n = .ok (gb, a)) :
    ds = [] ∧ (field_visibility g t f).2 = none ∧ a = none := by
  refine ⟨?_, rfl, ?_⟩
  · cases k with
    | struct =>
      simp [add_derives] at h1
      exact h1.2
    | enum =>
      simp [add_derives] at h1
      exact h1.2
    | union =>
      cases hb : blocklist_type g name with
      | error e => simp [add_derives, hb] at h1
      | ok g2 =>
        simp [add_derives, hb] at h1
        exact h1.2
  · cases hb : blocklist_type g n with
    | error e => simp [blocklisted_type_implements_trait, hb] at h2
    | ok g2 =>
      simp [blocklisted_type_implements_trait, hb] at h2
      exact h2.2.symm

/-- Witness for C10 at concrete callback invocations. -/
theorem c10_pure_observer_witness :
    (([] : List String) = []) ∧
    (field_visibility emptyGen "T" "f").2 = none ∧
    ((none : Option ImplementsTrait) = none) :=
  c10_pure_observer emptyGen ⟨[("A", [])], [], []⟩ ⟨[], [litRegex "B".data], []⟩
    "A" "B" "T" "f" .struct [] none (by decide) (by decide)

end CtruGen
